import Mathlib

/-!
Verification development for the tradr-frontend client.

The embedding models the session-bootstrap and watchlist-mutation core of
the repository:

* `Tradr.addStock` / `Tradr.removeStock` translate the `addStock` and
  `removeStock` functions of `src/components/StockTrackerAndAlerts.tsx`.
* `Tradr.initializeFirebase` translates the bootstrap effect of
  `src/App.tsx` together with its render gating.
* `Tradr.subStep` models the React `useEffect` lifecycle of the two
  snapshot subscriptions of `StockTrackerAndAlerts.tsx`.

JavaScript strings are modelled as lists of Unicode code points
(`Tradr.JStr`); `trim` and the ASCII fragment of `toUpperCase` (the only
fragment the client relies on for tickers) are defined on that
representation.  User-facing message texts are abstracted into the
inductive `Tradr.Msg`, one constructor per `showMessage` call site, with
the severity argument kept verbatim.
-/

namespace Tradr

/-- A JavaScript string: sequence of Unicode code points. -/
abbrev JStr : Type := List Nat

/-- JavaScript whitespace characters recognised by `String.prototype.trim`
(space, tab, LF, VT, FF, CR, NBSP, line/paragraph separator, BOM). -/
def jsIsWhitespace (n : Nat) : Bool :=
  n = 32 || n = 9 || n = 10 || n = 11 || n = 12 || n = 13 || n = 160 ||
  n = 8232 || n = 8233 || n = 65279

/-- `String.prototype.trim`: strip whitespace from both ends. -/
def jsTrim (s : JStr) : JStr :=
  ((List.dropWhile jsIsWhitespace s).reverse.dropWhile jsIsWhitespace).reverse

/-- One code point of `String.prototype.toUpperCase`, on the ASCII
fragment the client uses for stock tickers: `a`-`z` map 32 down. -/
def jsToUpperChar (n : Nat) : Nat :=
  if 97 ≤ n ∧ n ≤ 122 then n - 32 else n

/-- `String.prototype.toUpperCase` (ASCII fragment). -/
def jsToUpper (s : JStr) : JStr :=
  List.map jsToUpperChar s

/-- A Firestore field value as the client writes them: a JS string
(uid / ISO timestamp) or the array of tickers. -/
inductive FieldValue where
  | str (s : String)
  | tickers (l : List JStr)
  deriving DecidableEq

/-- A Firestore document: association list from field name to value. -/
abbrev Doc : Type := List (String × FieldValue)

/-- Set one field of a document (replace an existing binding, else append). -/
def setField : Doc → String → FieldValue → Doc
  | [], k, v => [(k, v)]
  | (k', v') :: rest, k, v =>
      if k' = k then (k, v) :: rest else (k', v') :: setField rest k v

/-- Read one field of a document. -/
def getField (d : Doc) (k : String) : Option FieldValue :=
  (d.find? (fun kv => kv.1 = k)).map (fun kv => kv.2)

/-- `setDoc(_, fields, \x7b merge: true \x7d)`: each supplied field is set,
every other field of the document is untouched. -/
def writeMergeFields (d : Doc) (fs : List (String × FieldValue)) : Doc :=
  fs.foldl (fun a kv => setField a kv.1 kv.2) d

/-- One remote write issued by the client: target path, supplied fields,
merge flag (the client always passes `merge: true`). -/
structure WriteOp where
  path : List String
  fields : List (String × FieldValue)
  merge : Bool
  deriving DecidableEq

/-- Path of the parent user document
`artifacts/<appId>/users/<userId>`. -/
def userDocPath (appId userId : String) : List String :=
  ["artifacts", appId, "users", userId]

/-- Path of the watchlist document
`artifacts/<appId>/users/<userId>/userStocks/trackedStocksDoc`. -/
def userStocksDocPath (appId userId : String) : List String :=
  ["artifacts", appId, "users", userId, "userStocks", "trackedStocksDoc"]

/-- The fields supplied by both watchlist writes
(`userId`, `stocks`, `lastUpdated`). -/
def stocksWriteFields (userId : String) (updated : List JStr) (now : String) :
    List (String × FieldValue) :=
  [("userId", FieldValue.str userId),
   ("stocks", FieldValue.tickers updated),
   ("lastUpdated", FieldValue.str now)]

/-- The fields supplied by the parent-user-document write in `addStock`. -/
def lastActiveFields (now : String) : List (String × FieldValue) :=
  [("lastActive", FieldValue.str now)]

/-- Severity argument of `showMessage`. -/
inductive MsgType where
  | success
  | error
  | blank
  deriving DecidableEq

/-- User-facing messages, one constructor per `showMessage` call site in
`StockTrackerAndAlerts.tsx` (texts abstracted). -/
inductive Msg where
  | emptyTicker
  | maxStocks
  | alreadyTracked
  | notReady
  | addedOk (t : JStr)
  | addFailed
  | removedOk (t : JStr)
  | removeFailed
  deriving DecidableEq

/-- Outcome of one watchlist mutation: the watchlist view once the
operation has settled (on success the snapshot listener delivers the
written `stocks` array back into `trackedStocks`; on any failure the
local state was never touched), the message shown, and the remote writes
that were issued, in order. -/
structure MutationResult where
  view : List JStr
  msg : Msg
  msgType : MsgType
  writes : List WriteOp
  deriving DecidableEq

/-- `addStock` of `StockTrackerAndAlerts.tsx` (lines 154-192).
Checks, in source order: empty trimmed input, 5-stock cap, duplicate of
the normalised ticker, then db/user readiness; only then the two awaited
merge writes (parent user document `lastActive`, then the watchlist
document).  `write1Ok` / `write2Ok` say whether each awaited `setDoc`
resolves; a rejection throws into the single `catch`. -/
def addStock (appId : String) (dbReady : Bool) (userId : Option String)
    (now : String) (trackedStocks : List JStr) (newStock : JStr)
    (write1Ok write2Ok : Bool) : MutationResult :=
  if (jsTrim newStock).isEmpty then
    ⟨trackedStocks, Msg.emptyTicker, MsgType.error, []⟩
  else if 5 ≤ trackedStocks.length then
    ⟨trackedStocks, Msg.maxStocks, MsgType.error, []⟩
  else
    let normalizedNewStock := jsToUpper (jsTrim newStock)
    if trackedStocks.contains normalizedNewStock then
      ⟨trackedStocks, Msg.alreadyTracked, MsgType.error, []⟩
    else
      match userId, dbReady with
      | some uid, true =>
        let w1 : WriteOp := ⟨userDocPath appId uid, lastActiveFields now, true⟩
        if write1Ok then
          let updatedStocks := trackedStocks ++ [normalizedNewStock]
          let w2 : WriteOp :=
            ⟨userStocksDocPath appId uid,
             stocksWriteFields uid updatedStocks now, true⟩
          if write2Ok then
            ⟨updatedStocks, Msg.addedOk normalizedNewStock, MsgType.success,
             [w1, w2]⟩
          else
            ⟨trackedStocks, Msg.addFailed, MsgType.error, [w1, w2]⟩
        else
          ⟨trackedStocks, Msg.addFailed, MsgType.error, [w1]⟩
      | _, _ => ⟨trackedStocks, Msg.notReady, MsgType.error, []⟩

/-- `removeStock` of `StockTrackerAndAlerts.tsx` (lines 194-213).
Filters the ticker out of the current list and merge-writes the result;
no validation beyond db/user readiness. -/
def removeStock (appId : String) (dbReady : Bool) (userId : Option String)
    (now : String) (trackedStocks : List JStr) (stockToRemove : JStr)
    (writeOk : Bool) : MutationResult :=
  match userId, dbReady with
  | some uid, true =>
    let updatedStocks := trackedStocks.filter (fun s => s ≠ stockToRemove)
    let w : WriteOp :=
      ⟨userStocksDocPath appId uid,
       stocksWriteFields uid updatedStocks now, true⟩
    if writeOk then
      ⟨updatedStocks, Msg.removedOk stockToRemove, MsgType.success, [w]⟩
    else
      ⟨trackedStocks, Msg.removeFailed, MsgType.error, [w]⟩
  | _, _ => ⟨trackedStocks, Msg.notReady, MsgType.error, []⟩

/-! ### Watchlist operation sequences

`WlOp` packages one user-initiated mutation together with the ambient
parameters of its invocation (app namespace, readiness, identity, clock,
remote outcomes); `wlStep` applies the mutation's settled view, and
`wlRun` folds a whole sequence from the empty watchlist (the snapshot
handler delivers `data.stocks || []`, i.e. `[]` before any document
exists). -/

/-- One watchlist mutation request with its ambient parameters. -/
inductive WlOp where
  | add (appId : String) (dbReady : Bool) (userId : Option String)
      (now : String) (raw : JStr) (write1Ok write2Ok : Bool)
  | remove (appId : String) (dbReady : Bool) (userId : Option String)
      (now : String) (t : JStr) (writeOk : Bool)

/-- The watchlist view after one mutation has settled. -/
def wlStep (l : List JStr) : WlOp → List JStr
  | WlOp.add appId dbReady userId now raw w1 w2 =>
      (addStock appId dbReady userId now l raw w1 w2).view
  | WlOp.remove appId dbReady userId now t w =>
      (removeStock appId dbReady userId now l t w).view

/-- The watchlist view after a sequence of mutations from the empty list. -/
def wlRun (ops : List WlOp) : List JStr :=
  ops.foldl wlStep []

/-- The watchlist document invariant of the data model: at most 5
tickers, every ticker uppercase, no duplicates. -/
def WlInv (l : List JStr) : Prop :=
  l.length ≤ 5 ∧ (∀ t ∈ l, jsToUpper t = t) ∧ l.Nodup

/-! ### Concurrent adds

`trackedStocks` is only refreshed by the `onSnapshot` listener after a
write commits, so an `addStock` call that starts before an earlier call's
write has committed computes `updatedStocks` from the same captured list.
`concurrentAdds` plays that schedule: both calls validate against the
stocks currently in the document, then their watchlist-document writes
are applied to the remote document in order. -/

/-- The stocks array the snapshot handler reads from the watchlist
document (`data.stocks || []`). -/
def readStocks (d : Doc) : List JStr :=
  match getField d "stocks" with
  | some (FieldValue.tickers l) => l
  | _ => []

/-- Apply, in order, the writes of a mutation that target the given
path. -/
def applyWritesAt (target : List String) (d : Doc) (ws : List WriteOp) :
    Doc :=
  (ws.filter (fun w => w.path = target)).foldl
    (fun a w => writeMergeFields a w.fields) d

/-- Remote watchlist document after two `addStock` calls that were both
issued before either committed: each call captured the same
`trackedStocks` (the stocks currently in `d`), and their writes land in
order. -/
def concurrentAdds (appId uid nowA nowB : String) (d : Doc)
    (rawA rawB : JStr) : Doc :=
  applyWritesAt (userStocksDocPath appId uid)
    (applyWritesAt (userStocksDocPath appId uid) d
      (addStock appId true (some uid) nowA (readStocks d) rawA true
        true).writes)
    (addStock appId true (some uid) nowB (readStocks d) rawB true
      true).writes

/-! ### Session bootstrap (`src/App.tsx`) -/

/-- The `App` component state relevant to bootstrap, plus two
instrumentation flags recording which external effects ran. -/
structure AppState where
  user : Option String
  isLoadingAuth : Bool
  authError : Option String
  showLoginPrompt : Bool
  /-- `initializeApp` / `getAuth` were reached (an auth connection was
  opened). -/
  authConnectionOpened : Bool
  /-- `signOut` was called on a detected pre-existing user and
  succeeded. -/
  signedOutInitialUser : Bool
  deriving DecidableEq

/-- Initial `useState` values of `App`. -/
def initialAppState : AppState :=
  ⟨none, true, none, false, false, false⟩

/-- The guard of `initializeFirebase`:
`!firebaseConfig || Object.keys(firebaseConfig).length === 0`.  The
config is modelled by its optional key set (`none` = missing or parse
failure). -/
def configInvalid : Option (List String) → Bool
  | none => true
  | some ks => ks.isEmpty

/-- Message set on the invalid-config path of `App.tsx`. -/
def cfgErrMsg : String :=
  "Firebase configuration is missing or invalid. Cannot initialize Firebase."

/-- Message set by the `catch` of `initializeFirebase`. -/
def initErrMsg : String :=
  "Failed to initialize Firebase."

/-- `initializeFirebase` of `src/App.tsx` (lines 67-135): config guard
(early return, no state change besides `authError`), Firebase init, wait
for the first auth-state callback, forced `signOut` of any pre-existing
user, then ready.  `initOk` says whether the Firebase setup calls up to
`setPersistence` resolve; `signOutOk` whether the forced `signOut`
resolves; a rejection lands in the `catch` (which does set
`isLoadingAuth` to `false`). -/
def initializeFirebase (config : Option (List String))
    (initialUser : Option String) (initOk signOutOk : Bool) : AppState :=
  if configInvalid config then
    { initialAppState with authError := some cfgErrMsg }
  else if initOk = false then
    { initialAppState with
        isLoadingAuth := false
        authError := some initErrMsg
        authConnectionOpened := true }
  else
    match initialUser with
    | some _ =>
        if signOutOk then
          { user := none, isLoadingAuth := false, authError := none,
            showLoginPrompt := false, authConnectionOpened := true,
            signedOutInitialUser := true }
        else
          { initialAppState with
              isLoadingAuth := false
              authError := some initErrMsg
              authConnectionOpened := true }
    | none =>
        { user := none, isLoadingAuth := false, authError := none,
          showLoginPrompt := false, authConnectionOpened := true,
          signedOutInitialUser := false }

/-- The three top-level screens of `App`'s render. -/
inductive Screen where
  | loading
  | errorScreen
  | main
  deriving DecidableEq

/-- The render gating of `App.tsx` (lines 200-218): the loading check
comes first, the error screen second. -/
def render (s : AppState) : Screen :=
  if s.isLoadingAuth then Screen.loading
  else if s.authError.isSome then Screen.errorScreen
  else Screen.main

/-! ### Subscription lifecycle (`StockTrackerAndAlerts.tsx`, the two
`useEffect` hooks keyed on `[db, userId, appId]`)

React semantics: when the dependency tuple changes between renders, the
previous run's cleanup (the `unsubscribe` returned by the effect) runs
first, then the effect body; when deps are unchanged the effect does not
re-run.  The effect body opens a snapshot listener exactly when
`db && userId`. -/

/-- Registry state for one resource: the paths of live (not yet
cancelled) listeners, the cleanup owned by the last effect run, and the
dependency tuple `(dbReady, userId)` of that run. -/
structure SubState where
  live : List (List String)
  currentCleanup : Option (List String)
  deps : Option (Bool × Option String)

/-- Before the first render: nothing live, no cleanup, no previous deps. -/
def initialSubState : SubState :=
  ⟨[], none, none⟩

/-- What the effect body opens for the given deps: a listener on
`path appId uid` iff both `db` and `userId` are present. -/
def effectTarget (path : String → String → List String) (appId : String)
    (dbReady : Bool) (uid : Option String) : Option (List String) :=
  match uid, dbReady with
  | some u, true => some (path appId u)
  | _, _ => none

/-- One render with dependency tuple `(dbReady, uid)`: if deps are
unchanged the effect is skipped; otherwise the previous cleanup cancels
its listener, then the body opens the new one (if any). -/
def subStep (path : String → String → List String) (appId : String)
    (s : SubState) (dbReady : Bool) (uid : Option String) : SubState :=
  if s.deps = some (dbReady, uid) then s
  else
    let afterCancel :=
      match s.currentCleanup with
      | some k => s.live.erase k
      | none => s.live
    let opened := effectTarget path appId dbReady uid
    { live :=
        match opened with
        | some k => afterCancel ++ [k]
        | none => afterCancel
      currentCleanup := opened
      deps := some (dbReady, uid) }

/-- Fold a whole sequence of renders from the initial state. -/
def subRun (path : String → String → List String) (appId : String)
    (events : List (Bool × Option String)) : SubState :=
  events.foldl (fun s e => subStep path appId s e.1 e.2) initialSubState

/-- The identity as of the last effect run. -/
def subUser (s : SubState) : Option String :=
  match s.deps with
  | some (_, u) => u
  | none => none

/-- Alignment invariant of the registry: the live listeners are exactly
the one held by the last effect run, and that one was opened for the
identity of that run. -/
def SubAligned (path : String → String → List String) (appId : String)
    (s : SubState) : Prop :=
  s.live = s.currentCleanup.toList ∧
  (∀ k, s.currentCleanup = some k →
      ∃ u, s.deps = some (true, some u) ∧ k = path appId u)

/-! ## Helper lemmas -/

/-- The ASCII upper-casing of one code point is idempotent. -/
theorem jsToUpperChar_idem (n : Nat) :
    jsToUpperChar (jsToUpperChar n) = jsToUpperChar n := by
  unfold jsToUpperChar
  by_cases h : 97 ≤ n ∧ n ≤ 122
  · have h2 : ¬ (97 ≤ n - 32 ∧ n - 32 ≤ 122) := by omega
    simp [h, h2]
    omega
  · simp [h]

/-- `toUpperCase` is idempotent. -/
theorem jsToUpper_idem (s : JStr) : jsToUpper (jsToUpper s) = jsToUpper s := by
  induction s with
  | nil => rfl
  | cons a t ih =>
      simp only [jsToUpper, List.map_cons] at *
      exact List.cons_eq_cons.mpr ⟨jsToUpperChar_idem a, ih⟩

/-- Reading back the field just set. -/
theorem getField_setField_self (d : Doc) (k : String) (v : FieldValue) :
    getField (setField d k v) k = some v := by
  induction d with
  | nil => simp [setField, getField]
  | cons kv rest ih =>
      by_cases h : kv.1 = k
      · simp [setField, getField, h]
      · simp only [setField, getField] at *
        simp [h, ih]

/-- Setting one field leaves every other field unchanged. -/
theorem getField_setField_ne (d : Doc) (k k' : String) (v : FieldValue)
    (h : k ≠ k') :
    getField (setField d k' v) k = getField d k := by
  have h' : ¬ (k' = k) := fun he => h he.symm
  induction d with
  | nil => simp [setField, getField, h']
  | cons kv rest ih =>
      obtain ⟨k1, v1⟩ := kv
      by_cases h2 : k1 = k'
      · subst h2
        simp [setField, getField, h']
      · simp only [setField, if_neg h2]
        by_cases h3 : k1 = k
        · subst h3
          simp [getField]
        · simp only [getField, List.find?_cons] at *
          simp [h3, ih]

/-- A watchlist-document merge write stores exactly the supplied stocks
array. -/
theorem readStocks_writeMerge (d : Doc) (uid now : String) (L : List JStr) :
    readStocks (writeMergeFields d (stocksWriteFields uid L now)) = L := by
  have h1 : getField
      (writeMergeFields d (stocksWriteFields uid L now)) "stocks" =
      some (FieldValue.tickers L) := by
    simp only [writeMergeFields, stocksWriteFields, List.foldl_cons,
      List.foldl_nil]
    rw [getField_setField_ne _ _ _ _ (by decide)]
    exact getField_setField_self _ _ _
  simp [readStocks, h1]

/-- A watchlist-document merge write leaves every field other than
`userId`, `stocks`, `lastUpdated` unchanged. -/
theorem getField_writeMerge_other (d : Doc) (uid now : String)
    (L : List JStr) (k : String) (h1 : k ≠ "userId") (h2 : k ≠ "stocks")
    (h3 : k ≠ "lastUpdated") :
    getField (writeMergeFields d (stocksWriteFields uid L now)) k =
      getField d k := by
  simp only [writeMergeFields, stocksWriteFields, List.foldl_cons,
    List.foldl_nil]
  rw [getField_setField_ne _ _ _ _ h3, getField_setField_ne _ _ _ _ h2,
    getField_setField_ne _ _ _ _ h1]

/-- The parent user document and the watchlist document are distinct
targets. -/
theorem userDocPath_ne_userStocksDocPath (appId uid : String) :
    userDocPath appId uid ≠ userStocksDocPath appId uid := by
  simp [userDocPath, userStocksDocPath]

/-- Case analysis on the settled view of `addStock`: either some guard
fired (or a write failed) and the view is the old list, or the add went
through, the cap and duplicate guards had passed, and the view is the
old list with the normalised ticker appended. -/
theorem addStock_view_cases (appId : String) (dbReady : Bool)
    (userId : Option String) (now : String) (l : List JStr) (raw : JStr)
    (w1 w2 : Bool) :
    (addStock appId dbReady userId now l raw w1 w2).view = l ∨
    ((addStock appId dbReady userId now l raw w1 w2).view =
        l ++ [jsToUpper (jsTrim raw)] ∧
      ¬ 5 ≤ l.length ∧
      jsToUpper (jsTrim raw) ∉ l) := by
  unfold addStock
  by_cases h1 : jsTrim raw = []
  · simp [h1]
  · by_cases h2 : 5 ≤ l.length
    · simp [h1, h2]
    · by_cases h3 : jsToUpper (jsTrim raw) ∈ l
      · simp [h1, h2, h3]
      · cases userId with
        | none => simp [h1, h2, h3]
        | some uid =>
            cases dbReady <;> cases w1 <;> cases w2 <;>
              simp [h1, h2, h3]

/-- Case analysis on the settled view of `removeStock`: either the
guard fired or the write failed (old list), or the view is the filtered
list. -/
theorem removeStock_view_cases (appId : String) (dbReady : Bool)
    (userId : Option String) (now : String) (l : List JStr) (t : JStr)
    (w : Bool) :
    (removeStock appId dbReady userId now l t w).view = l ∨
    (removeStock appId dbReady userId now l t w).view =
      l.filter (fun s => s ≠ t) := by
  unfold removeStock
  cases userId with
  | none => simp
  | some uid => cases dbReady <;> cases w <;> simp

/-! ## Claims -/

/-- C5: `addStock` rejects when the trimmed input is empty, when the
current list already has 5 entries, or when the normalised ticker is
already present; in each case no remote write is issued, the list is
unchanged, and an error-severity message is shown. -/
theorem addStock_validation_rejects (appId : String) (dbReady : Bool)
    (userId : Option String) (now : String) (l : List JStr) (raw : JStr)
    (w1 w2 : Bool)
    (h : jsTrim raw = [] ∨ 5 ≤ l.length ∨
         jsToUpper (jsTrim raw) ∈ l) :
    (addStock appId dbReady userId now l raw w1 w2).view = l ∧
    (addStock appId dbReady userId now l raw w1 w2).msgType =
      MsgType.error ∧
    (addStock appId dbReady userId now l raw w1 w2).writes = [] := by
  unfold addStock
  by_cases h1 : jsTrim raw = []
  · simp [h1]
  · by_cases h2 : 5 ≤ l.length
    · simp [h1, h2]
    · have h3 : jsToUpper (jsTrim raw) ∈ l := by
        rcases h with h | h | h
        · exact absurd h h1
        · exact absurd h h2
        · exact h
      simp [h1, h2, h3]

/-- Witness for C5: a full list of 5 tickers rejects a 6th distinct
ticker with no write. -/
theorem addStock_validation_rejects_witness :
    (addStock "app" true (some "u1") "T1"
        [[65], [66], [67], [68], [69]] [102] true true).view =
      [[65], [66], [67], [68], [69]] ∧
    (addStock "app" true (some "u1") "T1"
        [[65], [66], [67], [68], [69]] [102] true true).msgType =
      MsgType.error ∧
    (addStock "app" true (some "u1") "T1"
        [[65], [66], [67], [68], [69]] [102] true true).writes = [] :=
  addStock_validation_rejects "app" true (some "u1") "T1"
    [[65], [66], [67], [68], [69]] [102] true true
    (Or.inr (Or.inl (by decide)))

/-- C7: removing a ticker that is not in the list leaves the list
unchanged and reports success. -/
theorem removeStock_absent_success (appId uid now : String)
    (l : List JStr) (x : JStr) (hx : x ∉ l) :
    (removeStock appId true (some uid) now l x true).view = l ∧
    (removeStock appId true (some uid) now l x true).msgType =
      MsgType.success ∧
    (removeStock appId true (some uid) now l x true).msg =
      Msg.removedOk x := by
  have hf : l.filter (fun s => s ≠ x) = l := by
    apply List.filter_eq_self.mpr
    intro a ha
    simpa using fun he : a = x => hx (he ▸ ha)
  exact ⟨hf, rfl, rfl⟩

/-- Witness for C7: removing an absent ticker from a two-element list. -/
theorem removeStock_absent_success_witness :
    (removeStock "app" true (some "u1") "T1" [[65], [66]] [67] true).view =
      [[65], [66]] ∧
    (removeStock "app" true (some "u1") "T1"
        [[65], [66]] [67] true).msgType = MsgType.success ∧
    (removeStock "app" true (some "u1") "T1" [[65], [66]] [67] true).msg =
      Msg.removedOk [67] :=
  removeStock_absent_success "app" "u1" "T1" [[65], [66]] [67] (by decide)

/-- C4: when the remote write of a passing `addTicker` fails, the
watchlist view afterwards equals its pre-call value and an
error-severity message is produced. -/
theorem addStock_write_failure_rollback (appId uid now : String)
    (l : List JStr) (raw : JStr) (w1 w2 : Bool)
    (h1 : jsTrim raw ≠ [])
    (h2 : ¬ 5 ≤ l.length)
    (h3 : jsToUpper (jsTrim raw) ∉ l)
    (hfail : w1 = false ∨ w2 = false) :
    (addStock appId true (some uid) now l raw w1 w2).view = l ∧
    (addStock appId true (some uid) now l raw w1 w2).msgType =
      MsgType.error ∧
    (addStock appId true (some uid) now l raw w1 w2).msg =
      Msg.addFailed := by
  unfold addStock
  rcases hfail with h | h <;> subst h
  · simp [h1, h2, h3]
  · cases w1 <;> simp [h1, h2, h3]

/-- Witness for C4: the watchlist write fails on a 1-element list. -/
theorem addStock_write_failure_rollback_witness :
    (addStock "app" true (some "u1") "T1" [[65]] [98] true false).view =
      [[65]] ∧
    (addStock "app" true (some "u1") "T1" [[65]] [98] true false).msgType =
      MsgType.error ∧
    (addStock "app" true (some "u1") "T1" [[65]] [98] true false).msg =
      Msg.addFailed :=
  addStock_write_failure_rollback "app" "u1" "T1" [[65]] [98] true false
    (by decide) (by decide) (by decide) (Or.inr rfl)

/-- C10: a successful `addStock` issues exactly two merge writes: first
a `lastActive` timestamp into the parent user document
`artifacts/<appId>/users/<userId>`, then the watchlist document write. -/
theorem addStock_success_writes (appId uid now : String)
    (l : List JStr) (raw : JStr)
    (h1 : jsTrim raw ≠ [])
    (h2 : ¬ 5 ≤ l.length)
    (h3 : jsToUpper (jsTrim raw) ∉ l) :
    (addStock appId true (some uid) now l raw true true).writes =
      [⟨userDocPath appId uid, lastActiveFields now, true⟩,
       ⟨userStocksDocPath appId uid,
        stocksWriteFields uid (l ++ [jsToUpper (jsTrim raw)]) now,
        true⟩] ∧
    (addStock appId true (some uid) now l raw true true).msgType =
      MsgType.success := by
  unfold addStock
  simp [h1, h2, h3]

/-- Witness for C10: a concrete successful add issues the user-document
`lastActive` write before the watchlist write. -/
theorem addStock_success_writes_witness :
    (addStock "app" true (some "u1") "T1" [] [98] true true).writes =
      [⟨userDocPath "app" "u1", lastActiveFields "T1", true⟩,
       ⟨userStocksDocPath "app" "u1",
        stocksWriteFields "u1" [[66]] "T1", true⟩] ∧
    (addStock "app" true (some "u1") "T1" [] [98] true true).msgType =
      MsgType.success := by
  have h := addStock_success_writes "app" "u1" "T1" [] [98]
    (by decide) (by decide) (by decide)
  simpa using h

/-- C1: after a bootstrap with a valid configuration, whatever identity
the auth provider previously held, the session is unauthenticated with
no user, no error, loading finished — and any detected pre-existing
identity was signed out before the app became ready. -/
theorem bootstrap_always_unauthenticated (config : Option (List String))
    (initialUser : Option String) (hc : configInvalid config = false) :
    (initializeFirebase config initialUser true true).user = none ∧
    (initializeFirebase config initialUser true true).isLoadingAuth =
      false ∧
    (initializeFirebase config initialUser true true).authError = none ∧
    (initialUser.isSome = true →
      (initializeFirebase config initialUser true
          true).signedOutInitialUser = true) := by
  unfold initializeFirebase
  cases initialUser <;> simp [hc]

/-- Witness for C1: bootstrap with a stale provider identity ends with
no user. -/
theorem bootstrap_always_unauthenticated_witness :
    (initializeFirebase (some ["apiKey"]) (some "staleUser") true
        true).user = none ∧
    (initializeFirebase (some ["apiKey"]) (some "staleUser") true
        true).isLoadingAuth = false ∧
    (initializeFirebase (some ["apiKey"]) (some "staleUser") true
        true).authError = none ∧
    ((some "staleUser" : Option String).isSome = true →
      (initializeFirebase (some ["apiKey"]) (some "staleUser") true
          true).signedOutInitialUser = true) :=
  bootstrap_always_unauthenticated (some ["apiKey"]) (some "staleUser")
    (by decide)

/-- C9 exhibit: with a missing or empty configuration, bootstrap does
set an error and opens no auth connection, but `isLoadingAuth` is never
cleared on that path and the render gate checks loading before error —
so the app stays on the loading screen and the configuration error is
never surfaced. -/
theorem invalid_config_error_never_rendered :
    (initializeFirebase none (some "staleUser") true true).authError =
      some cfgErrMsg ∧
    (initializeFirebase none (some "staleUser") true
        true).authConnectionOpened = false ∧
    render (initializeFirebase none (some "staleUser") true true) =
      Screen.loading ∧
    render (initializeFirebase (some []) none true true) =
      Screen.loading := by
  constructor
  · rfl
  · constructor
    · rfl
    · constructor <;> rfl

/-- One watchlist mutation preserves the watchlist-document invariant. -/
theorem wlStep_preserves_inv (l : List JStr) (op : WlOp) (h : WlInv l) :
    WlInv (wlStep l op) := by
  obtain ⟨hlen, hup, hnd⟩ := h
  cases op with
  | add appId dbReady userId now raw w1 w2 =>
      rcases addStock_view_cases appId dbReady userId now l raw w1 w2 with
        hv | ⟨hv, hcap, hmem⟩
      · simp only [wlStep]
        rw [hv]
        exact ⟨hlen, hup, hnd⟩
      · simp only [wlStep]
        rw [hv]
        refine ⟨?_, ?_, ?_⟩
        · simp only [List.length_append, List.length_cons,
            List.length_nil]
          omega
        · intro t ht
          rcases List.mem_append.mp ht with h' | h'
          · exact hup t h'
          · have he : t = jsToUpper (jsTrim raw) := by simpa using h'
            rw [he]
            exact jsToUpper_idem _
        · exact List.Nodup.append hnd (List.nodup_singleton _)
            (by simpa using hmem)
  | remove appId dbReady userId now t w =>
      rcases removeStock_view_cases appId dbReady userId now l t w with
        hv | hv
      · simp only [wlStep]
        rw [hv]
        exact ⟨hlen, hup, hnd⟩
      · simp only [wlStep]
        rw [hv]
        refine ⟨le_trans (List.length_filter_le _ _) hlen, ?_,
          List.Nodup.filter _ hnd⟩
        intro s hs
        exact hup s (List.mem_of_mem_filter hs)

/-- C2: for every sequence of add/remove operations starting from the
empty watchlist, the resulting list has length at most 5, every stored
ticker is uppercase, and no ticker appears twice. -/
theorem watchlist_invariant (ops : List WlOp) : WlInv (wlRun ops) := by
  have hall : ∀ (os : List WlOp) (l : List JStr), WlInv l →
      WlInv (os.foldl wlStep l) := by
    intro os
    induction os with
    | nil => intro l hl; simpa using hl
    | cons op rest ih =>
        intro l hl
        simp only [List.foldl_cons]
        exact ih _ (wlStep_preserves_inv l op hl)
  exact hall ops [] ⟨by simp, by simp, List.nodup_nil⟩

/-- One render step preserves the registry alignment invariant. -/
theorem subStep_aligned (path : String → String → List String)
    (appId : String) (s : SubState) (db : Bool) (u : Option String)
    (h : SubAligned path appId s) :
    SubAligned path appId (subStep path appId s db u) := by
  obtain ⟨h1, h2⟩ := h
  unfold subStep
  by_cases hd : s.deps = some (db, u)
  · simpa [hd] using ⟨h1, h2⟩
  · have hac : (match s.currentCleanup with
        | some k => s.live.erase k
        | none => s.live) = [] := by
      cases hc : s.currentCleanup with
      | none =>
          simp only [hc]
          rw [h1, hc]
          rfl
      | some k =>
          simp only [hc]
          rw [h1, hc]
          simp [Option.toList]
    simp only [hd, if_neg, ite_false]
    cases u with
    | none =>
        refine ⟨?_, ?_⟩
        · simp [effectTarget, hac]
        · intro k hk
          simp [effectTarget] at hk
    | some uu =>
        cases db with
        | false =>
            refine ⟨?_, ?_⟩
            · simp [effectTarget, hac]
            · intro k hk
              simp [effectTarget] at hk
        | true =>
            refine ⟨?_, ?_⟩
            · simp [effectTarget, hac]
            · intro k hk
              simp [effectTarget] at hk
              exact ⟨uu, rfl, hk.symm⟩

/-- C8: after any sequence of renders, at most one listener is live for
the resource, any live listener's path is the one keyed by the current
identity, and no listener is live when no identity is present.  (The
watchlist-document and alerts-collection effects are two instances of
this statement with different `path` functions.) -/
theorem subscription_registry_invariant
    (path : String → String → List String) (appId : String)
    (events : List (Bool × Option String)) :
    (subRun path appId events).live.length ≤ 1 ∧
    (∀ k ∈ (subRun path appId events).live,
        ∃ u, subUser (subRun path appId events) = some u ∧
          k = path appId u) ∧
    (subUser (subRun path appId events) = none →
        (subRun path appId events).live = []) := by
  have haligned : SubAligned path appId (subRun path appId events) := by
    have hall : ∀ (es : List (Bool × Option String)) (s : SubState),
        SubAligned path appId s →
        SubAligned path appId
          (es.foldl (fun s e => subStep path appId s e.1 e.2) s) := by
      intro es
      induction es with
      | nil => intro s hs; simpa using hs
      | cons e rest ih =>
          intro s hs
          simp only [List.foldl_cons]
          exact ih _ (subStep_aligned path appId s e.1 e.2 hs)
    exact hall events initialSubState
      ⟨rfl, fun k hk => by simp [initialSubState] at hk⟩
  obtain ⟨h1, h2⟩ := haligned
  refine ⟨?_, ?_, ?_⟩
  · rw [h1]
    cases (subRun path appId events).currentCleanup <;> simp
  · intro k hk
    rw [h1] at hk
    cases hc : (subRun path appId events).currentCleanup with
    | none => rw [hc] at hk; cases hk
    | some k' =>
        rw [hc] at hk
        have hkk : k = k' := by simpa [Option.toList] using hk
        obtain ⟨u, hdeps, hpath⟩ := h2 k' hc
        exact ⟨u, by simp [subUser, hdeps], hkk ▸ hpath⟩
  · intro hu
    rw [h1]
    cases hc : (subRun path appId events).currentCleanup with
    | none => rfl
    | some k =>
        obtain ⟨u, hdeps, _⟩ := h2 k hc
        rw [subUser, hdeps] at hu
        cases hu

/-- Shape of the writes issued by `addStock`: each is either the parent
user-document `lastActive` write or a watchlist-document write carrying
the `userId` / `stocks` / `lastUpdated` fields. -/
theorem addStock_writes_shape (appId : String) (db : Bool)
    (userId : Option String) (now : String) (l : List JStr) (raw : JStr)
    (w1 w2 : Bool) :
    ∀ w ∈ (addStock appId db userId now l raw w1 w2).writes,
      (∃ uid, userId = some uid ∧ w.path = userDocPath appId uid ∧
        w.fields = lastActiveFields now) ∨
      (∃ uid L, userId = some uid ∧
        w.path = userStocksDocPath appId uid ∧
        w.fields = stocksWriteFields uid L now) := by
  unfold addStock
  by_cases h1 : jsTrim raw = []
  · simp [h1]
  · by_cases h2 : 5 ≤ l.length
    · simp [h1, h2]
    · by_cases h3 : jsToUpper (jsTrim raw) ∈ l
      · simp [h1, h2, h3]
      · cases userId with
        | none => simp [h1, h2, h3]
        | some uid =>
            cases db with
            | false => simp [h1, h2, h3]
            | true =>
                cases w1 with
                | false =>
                    intro w hw
                    simp [h1, h2, h3] at hw
                    left
                    exact ⟨uid, rfl, by rw [hw], by rw [hw]⟩
                | true =>
                    cases w2 with
                    | false =>
                        intro w hw
                        simp [h1, h2, h3] at hw
                        rcases hw with hw | hw
                        · left
                          exact ⟨uid, rfl, by rw [hw], by rw [hw]⟩
                        · right
                          exact ⟨uid, l ++ [jsToUpper (jsTrim raw)],
                            rfl, by rw [hw], by rw [hw]⟩
                    | true =>
                        intro w hw
                        simp [h1, h2, h3] at hw
                        rcases hw with hw | hw
                        · left
                          exact ⟨uid, rfl, by rw [hw], by rw [hw]⟩
                        · right
                          exact ⟨uid, l ++ [jsToUpper (jsTrim raw)],
                            rfl, by rw [hw], by rw [hw]⟩

/-- Shape of the writes issued by `removeStock`: always a
watchlist-document write carrying `userId` / `stocks` / `lastUpdated`. -/
theorem removeStock_writes_shape (appId : String) (db : Bool)
    (userId : Option String) (now : String) (l : List JStr) (t : JStr)
    (ok : Bool) :
    ∀ w ∈ (removeStock appId db userId now l t ok).writes,
      ∃ uid L, userId = some uid ∧
        w.path = userStocksDocPath appId uid ∧
        w.fields = stocksWriteFields uid L now := by
  unfold removeStock
  cases userId with
  | none => simp
  | some uid =>
      cases db with
      | false => simp
      | true =>
          cases ok with
          | false =>
              intro w hw
              simp at hw
              exact ⟨uid, List.filter (fun s => !decide (s = t)) l, rfl,
                by rw [hw], by rw [hw]⟩
          | true =>
              intro w hw
              simp at hw
              exact ⟨uid, List.filter (fun s => !decide (s = t)) l, rfl,
                by rw [hw], by rw [hw]⟩

/-- C6 counterexample: the watchlist-document write of a mutation does
not supply only the ticker-list field — a pre-existing `lastUpdated`
value is overwritten by a concrete `removeStock`, so not every
non-ticker-list field is preserved. -/
theorem watchlist_write_not_only_tickerlist :
    getField
      (applyWritesAt (userStocksDocPath "app" "u1")
        [("lastUpdated", FieldValue.str "T0")]
        (removeStock "app" true (some "u1") "T1" [[65]] [65]
          true).writes)
      "lastUpdated" ≠
    getField [("lastUpdated", FieldValue.str "T0")] "lastUpdated" := by
  decide

/-- C6 amended: every watchlist-document write issued by `addStock` or
`removeStock` is a merge write supplying exactly the `userId`, `stocks`
and `lastUpdated` fields, so every field of the watchlist document
other than these three is preserved (the ticker list itself, the
`userId` field and the `lastUpdated` timestamp are written). -/
theorem watchlist_write_preserves_other_fields (appId : String)
    (db : Bool) (userId : Option String) (now : String) (l : List JStr)
    (raw x : JStr) (w1 w2 ok : Bool) (d : Doc) (uid : String)
    (k : String) (h1 : k ≠ "userId") (h2 : k ≠ "stocks")
    (h3 : k ≠ "lastUpdated") :
    (∀ w ∈ (addStock appId db userId now l raw w1 w2).writes,
        w.path = userStocksDocPath appId uid →
        getField (writeMergeFields d w.fields) k = getField d k) ∧
    (∀ w ∈ (removeStock appId db userId now l x ok).writes,
        w.path = userStocksDocPath appId uid →
        getField (writeMergeFields d w.fields) k = getField d k) := by
  constructor
  · intro w hw hp
    rcases addStock_writes_shape appId db userId now l raw w1 w2 w hw with
      ⟨uid', _, hpath, _⟩ | ⟨uid', L, _, _, hfields⟩
    · rw [hpath] at hp
      have hlen : (userDocPath appId uid').length =
          (userStocksDocPath appId uid).length := by rw [hp]
      simp [userDocPath, userStocksDocPath] at hlen
    · rw [hfields]
      exact getField_writeMerge_other d uid' now L k h1 h2 h3
  · intro w hw _
    rcases removeStock_writes_shape appId db userId now l x ok w hw with
      ⟨uid', L, _, _, hfields⟩
    rw [hfields]
    exact getField_writeMerge_other d uid' now L k h1 h2 h3

/-- Witness for the amended C6: a concrete add and remove preserve an
unrelated `note` field of the watchlist document. -/
theorem watchlist_write_preserves_other_fields_witness :
    (∀ w ∈ (addStock "app" true (some "u1") "T1" [] [98] true
        true).writes,
      w.path = userStocksDocPath "app" "u1" →
      getField
        (writeMergeFields [("note", FieldValue.str "keep")] w.fields)
        "note" =
      getField [("note", FieldValue.str "keep")] "note") ∧
    (∀ w ∈ (removeStock "app" true (some "u1") "T1" [[66]] [66]
        true).writes,
      w.path = userStocksDocPath "app" "u1" →
      getField
        (writeMergeFields [("note", FieldValue.str "keep")] w.fields)
        "note" =
      getField [("note", FieldValue.str "keep")] "note") :=
  watchlist_write_preserves_other_fields "app" true (some "u1") "T1" []
    [98] [66] true true true [("note", FieldValue.str "keep")] "u1"
    "note" (by decide) (by decide) (by decide)

/-- Applying the two writes of a successful `addStock` to the watchlist
document keeps only the watchlist-document write (the `lastActive`
write targets the parent user document). -/
theorem applyWritesAt_stocks (appId uid nowX : String) (d : Doc)
    (L : List JStr) :
    applyWritesAt (userStocksDocPath appId uid) d
      [⟨userDocPath appId uid, lastActiveFields nowX, true⟩,
       ⟨userStocksDocPath appId uid, stocksWriteFields uid L nowX,
        true⟩] =
      writeMergeFields d (stocksWriteFields uid L nowX) := by
  unfold applyWritesAt
  have hne : userDocPath appId uid ≠ userStocksDocPath appId uid :=
    userDocPath_ne_userStocksDocPath appId uid
  simp [hne]

/-- C3 counterexample: two `addStock` calls both issued before either
commits (so both capture the same `trackedStocks`) are not serialized;
the second write overwrites the first, the final list holds only the
second ticker, although both calls validated and reported success. -/
theorem concurrent_adds_lose_first :
    readStocks (concurrentAdds "app" "u1" "T1" "T2" []
        [97, 97, 112, 108] [109, 115, 102, 116]) = [[77, 83, 70, 84]] ∧
    [65, 65, 80, 76] ∉ readStocks (concurrentAdds "app" "u1" "T1" "T2"
        [] [97, 97, 112, 108] [109, 115, 102, 116]) ∧
    (addStock "app" true (some "u1") "T1" [] [97, 97, 112, 108] true
        true).msgType = MsgType.success ∧
    (addStock "app" true (some "u1") "T2" [] [109, 115, 102, 116] true
        true).msgType = MsgType.success := by
  refine ⟨?_, by decide, rfl, rfl⟩
  rfl

/-- C3 amended: for two `addTicker` calls issued concurrently (the
second starting before the first commits), both compute their update
from the same captured list, so the mutations are not serialized: the
second write overwrites the first and the first ticker is lost — the
final list is the captured list plus the second ticker only. -/
theorem concurrent_adds_second_wins (appId uid nowA nowB : String)
    (d : Doc) (rawA rawB : JStr)
    (hA1 : jsTrim rawA ≠ []) (hcap : ¬ 5 ≤ (readStocks d).length)
    (hA3 : jsToUpper (jsTrim rawA) ∉ readStocks d)
    (hB1 : jsTrim rawB ≠ [])
    (hB3 : jsToUpper (jsTrim rawB) ∉ readStocks d)
    (hAB : jsToUpper (jsTrim rawA) ≠ jsToUpper (jsTrim rawB)) :
    readStocks (concurrentAdds appId uid nowA nowB d rawA rawB) =
      readStocks d ++ [jsToUpper (jsTrim rawB)] ∧
    jsToUpper (jsTrim rawA) ∉
      readStocks (concurrentAdds appId uid nowA nowB d rawA rawB) := by
  have hwA := (addStock_success_writes appId uid nowA (readStocks d)
    rawA hA1 hcap hA3).1
  have hwB := (addStock_success_writes appId uid nowB (readStocks d)
    rawB hB1 hcap hB3).1
  have hfinal : readStocks (concurrentAdds appId uid nowA nowB d rawA
      rawB) = readStocks d ++ [jsToUpper (jsTrim rawB)] := by
    unfold concurrentAdds
    rw [hwA, hwB, applyWritesAt_stocks, applyWritesAt_stocks,
      readStocks_writeMerge]
  refine ⟨hfinal, ?_⟩
  rw [hfinal]
  simp only [List.mem_append, List.mem_singleton]
  rintro (hin | heq)
  · exact hA3 hin
  · exact hAB heq

/-- Witness for the amended C3: concrete concurrent adds of two
distinct tickers leave only the second. -/
theorem concurrent_adds_second_wins_witness :
    readStocks (concurrentAdds "app" "u1" "T1" "T2" []
        [97, 97, 112, 108] [109, 115, 102, 116]) =
      [] ++ [jsToUpper (jsTrim [109, 115, 102, 116])] ∧
    jsToUpper (jsTrim [97, 97, 112, 108]) ∉
      readStocks (concurrentAdds "app" "u1" "T1" "T2" []
        [97, 97, 112, 108] [109, 115, 102, 116]) :=
  concurrent_adds_second_wins "app" "u1" "T1" "T2" []
    [97, 97, 112, 108] [109, 115, 102, 116] (by decide) (by decide)
    (by decide) (by decide) (by decide) (by decide)

end Tradr

